import Mathlib

/-!
Shallow embedding of the Buzzy Defender game (SFML arcade shooter).

Geometry is modelled over the rationals. Each SFML sprite is reduced to the
data the game logic reads: position, origin, scale and local (texture)
bounds; global bounds are derived exactly as SFML derives them for a
translated and scaled (never rotated, non-negatively scaled) sprite.
-/

namespace BuzzyDefender

/-- sf::FloatRect: left, top, width, height. -/
structure FloatRect where
  left : ℚ
  top : ℚ
  width : ℚ
  height : ℚ
deriving DecidableEq, Repr

/-- sf::FloatRect::intersects for rectangles with non-negative sizes:
the overlap must be strictly positive in both axes. -/
def FloatRect.intersects (a b : FloatRect) : Bool :=
  let interLeft := max a.left b.left
  let interTop := max a.top b.top
  let interRight := min (a.left + a.width) (b.left + b.width)
  let interBottom := min (a.top + a.height) (b.top + b.height)
  decide (interLeft < interRight) && decide (interTop < interBottom)

/-- The transform data of an sf::Sprite that the game logic uses:
position, origin, scale, and the local-bounds (texture) size. -/
structure SpriteState where
  px : ℚ
  py : ℚ
  ox : ℚ
  oy : ℚ
  sx : ℚ
  sy : ℚ
  lw : ℚ
  lh : ℚ
deriving DecidableEq, Repr

/-- sf::Sprite::getGlobalBounds for a translated and scaled sprite with
non-negative scale factors (the only configurations this game creates). -/
def SpriteState.globalBounds (s : SpriteState) : FloatRect :=
  ⟨s.px - s.ox * s.sx, s.py - s.oy * s.sy, s.lw * s.sx, s.lh * s.sy⟩

/-- sf::Transformable::move: translate the position. -/
def SpriteState.move (s : SpriteState) (dx dy : ℚ) : SpriteState :=
  { s with px := s.px + dx, py := s.py + dy }

/-- ECE_Enemy: an sf::Sprite plus the m_alive flag (default true). -/
structure ECE_Enemy where
  sprite : SpriteState
  m_alive : Bool := true
deriving DecidableEq, Repr

def ECE_Enemy.isAlive (e : ECE_Enemy) : Bool := e.m_alive

def ECE_Enemy.kill (e : ECE_Enemy) : ECE_Enemy := { e with m_alive := false }

def ECE_Enemy.setAlive (e : ECE_Enemy) (a : Bool) : ECE_Enemy := { e with m_alive := a }

def ECE_Enemy.getGlobalBounds (e : ECE_Enemy) : FloatRect := e.sprite.globalBounds

def ECE_Enemy.move (e : ECE_Enemy) (dx dy : ℚ) : ECE_Enemy :=
  { e with sprite := e.sprite.move dx dy }

/-- ECE_LaserBlast: an sf::Sprite plus velocity and the fromPlayer flag. -/
structure ECE_LaserBlast where
  sprite : SpriteState
  m_vel : ℚ × ℚ := (0, 0)
  m_fromPlayer : Bool := true
deriving DecidableEq, Repr

/-- The ECE_LaserBlast constructor: centers the origin on the local bounds
and scales the sprite to a 6 x 18 bolt. Position starts at the sf::Sprite
default (0, 0). -/
def ECE_LaserBlast.create (lw lh : ℚ) (fromPlayer : Bool) : ECE_LaserBlast :=
  { sprite := { px := 0, py := 0, ox := lw / 2, oy := lh / 2,
                sx := 6 / lw, sy := 18 / lh, lw := lw, lh := lh },
    m_vel := (0, 0), m_fromPlayer := fromPlayer }

def ECE_LaserBlast.setVelocity (l : ECE_LaserBlast) (v : ℚ × ℚ) : ECE_LaserBlast :=
  { l with m_vel := v }

def ECE_LaserBlast.setPosition (l : ECE_LaserBlast) (x y : ℚ) : ECE_LaserBlast :=
  { l with sprite := { l.sprite with px := x, py := y } }

/-- ECE_LaserBlast::update: move by velocity times elapsed time. -/
def ECE_LaserBlast.update (l : ECE_LaserBlast) (dt : ℚ) : ECE_LaserBlast :=
  { l with sprite := l.sprite.move (l.m_vel.1 * dt) (l.m_vel.2 * dt) }

def ECE_LaserBlast.getGlobalBounds (l : ECE_LaserBlast) : FloatRect := l.sprite.globalBounds

/-- ECE_LaserBlast::isOffScreen: entirely above the top edge or past the
window height. -/
def ECE_LaserBlast.isOffScreen (l : ECE_LaserBlast) (windowHeight : ℚ) : Bool :=
  let gb := l.getGlobalBounds
  decide (gb.top + gb.height < 0) || decide (gb.top > windowHeight)

/-- ECE_Buzzy: an sf::Sprite plus the horizontal speed m_speed (450 px/s). -/
structure ECE_Buzzy where
  sprite : SpriteState
  m_speed : ℚ := 450
deriving DecidableEq, Repr

def ECE_Buzzy.getGlobalBounds (b : ECE_Buzzy) : FloatRect := b.sprite.globalBounds

/-- std::clamp(v, lo, hi): lo if v is below lo, hi if v is above hi, else v. -/
def clampQ (v lo hi : ℚ) : ℚ := if v < lo then lo else if hi < v then hi else v

/-- ECE_Buzzy::update. Keyboard state enters as the two booleans the body
polls. dx accumulates negative speed for Left and positive for Right; the
new x is clamped so half the global width stays inside the window on both
sides. Only the position x coordinate is written. -/
def ECE_Buzzy.update (b : ECE_Buzzy) (leftKey rightKey : Bool) (dt windowWidth : ℚ) :
    ECE_Buzzy :=
  let dx : ℚ := (if leftKey then -(b.m_speed * dt) else 0) +
                (if rightKey then b.m_speed * dt else 0)
  let half := b.getGlobalBounds.width / 2
  let newX := clampQ (b.sprite.px + dx) half (windowWidth - half)
  { b with sprite := { b.sprite with px := newX } }

/-- The Space branch of handleEvents: spawn a player laser at the tail of
Buzzy and give it velocity (0, 400), i.e. downward in screen coordinates.
lw and lh are the local bounds of the laser texture. -/
def spawnPlayerShot (buzzy : ECE_Buzzy) (lw lh : ℚ) : ECE_LaserBlast :=
  let shot := ECE_LaserBlast.create lw lh true
  let shot := shot.setPosition buzzy.sprite.px
      (buzzy.sprite.py + buzzy.getGlobalBounds.height / 2 + 10)
  shot.setVelocity (0, 400)

/-- spawnEnemyLaser: collect the alive enemies, and when at least one
exists pick the shooter at index rand mod count, spawning a laser with
velocity (0, -300), i.e. upward in screen coordinates. Returns the new
laser, or none when no enemy is alive. -/
def spawnEnemyLaser (enemies : List ECE_Enemy) (randVal : ℕ) (lw lh : ℚ) :
    Option ECE_LaserBlast :=
  let alive := enemies.filter fun e => e.isAlive
  if h : alive.length = 0 then none
  else
    let shooter := alive.get ⟨randVal % alive.length,
      Nat.mod_lt _ (Nat.pos_of_ne_zero h)⟩
    let shot := ECE_LaserBlast.create lw lh false
    let shot := shot.setPosition shooter.sprite.px
        (shooter.sprite.py + shooter.getGlobalBounds.height / 2 + 10)
    some (shot.setVelocity (0, -300))

/-- One side of updateShots: advance each laser by dt and erase it when it
has left the screen (applied to playerShots and to enemyShots alike). -/
def updateShotList (shots : List ECE_LaserBlast) (dt windowHeight : ℚ) :
    List ECE_LaserBlast :=
  (shots.map fun l => l.update dt).filter fun l => !(l.isOffScreen windowHeight)

/-- The running minimum over the left edges of the alive enemies, mirroring
the loop that starts minLeft at plus infinity: none plays the role of the
infinite start value, so none is returned exactly when no enemy is alive
(the !isfinite early return). -/
def minLeftAlive (enemies : List ECE_Enemy) : Option ℚ :=
  enemies.foldl (fun acc e =>
    if e.isAlive then
      match acc with
      | none => some e.getGlobalBounds.left
      | some m => some (min m e.getGlobalBounds.left)
    else acc) none

/-- The running maximum over the right edges (left + width) of the alive
enemies, mirroring the loop that starts maxRight at minus infinity. -/
def maxRightAlive (enemies : List ECE_Enemy) : Option ℚ :=
  enemies.foldl (fun acc e =>
    if e.isAlive then
      match acc with
      | none => some (e.getGlobalBounds.left + e.getGlobalBounds.width)
      | some m => some (max m (e.getGlobalBounds.left + e.getGlobalBounds.width))
    else acc) none

/-- updateEnemies: march the swarm horizontally by enemySpeedX * dir * dt;
when the predicted move would cross a window wall, instead translate every
alive enemy so the offending edge sits on the wall, add stepUp vertically,
and flip dir. Dead enemies are never moved. Returns the new swarm and the
new direction. -/
def updateEnemies (enemies : List ECE_Enemy) (dt windowWidth enemySpeedX : ℚ)
    (dir : ℤ) (stepUp : ℚ) : List ECE_Enemy × ℤ :=
  if enemies.isEmpty then (enemies, dir)
  else
    match minLeftAlive enemies, maxRightAlive enemies with
    | some minLeft, some maxRight =>
      let dx := enemySpeedX * (dir : ℚ) * dt
      let nextLeft := minLeft + dx
      let nextRight := maxRight + dx
      if nextLeft < 0 ∨ nextRight > windowWidth then
        let correctionX := if nextLeft < 0 then -minLeft else windowWidth - maxRight
        (enemies.map fun e => if e.isAlive then e.move correctionX stepUp else e, -dir)
      else
        (enemies.map fun e => if e.isAlive then e.move dx 0 else e, dir)
    | _, _ => (enemies, dir)

/-- The inner loop of checkPlayerShotCollisions for one shot: scan the
enemies in order and kill the first alive one whose global bounds the shot
intersects. Returns the updated swarm when a hit happened (the break), and
none when the shot hit nothing. -/
def killFirstHit (shotBounds : FloatRect) : List ECE_Enemy → Option (List ECE_Enemy)
  | [] => none
  | e :: es =>
    if e.isAlive && shotBounds.intersects e.getGlobalBounds then
      some (e.kill :: es)
    else
      (killFirstHit shotBounds es).map fun es₂ => e :: es₂

/-- checkPlayerShotCollisions: process the player shots in order; a shot
that kills an enemy is erased, a shot that hits nothing stays. Returns the
surviving shots and the updated swarm. -/
def checkPlayerShotCollisions :
    List ECE_LaserBlast → List ECE_Enemy → List ECE_LaserBlast × List ECE_Enemy
  | [], enemies => ([], enemies)
  | shot :: shots, enemies =>
    match killFirstHit shot.getGlobalBounds enemies with
    | some enemies₂ => checkPlayerShotCollisions shots enemies₂
    | none =>
      let rest := checkPlayerShotCollisions shots enemies
      (shot :: rest.1, rest.2)

/-- checkPlayerEnemyCollision: does some alive enemy intersect Buzzy. -/
def checkPlayerEnemyCollision (buzzy : ECE_Buzzy) (enemies : List ECE_Enemy) : Bool :=
  let buzzyBounds := buzzy.getGlobalBounds
  enemies.any fun e => e.isAlive && buzzyBounds.intersects e.getGlobalBounds

/-- checkEnemyShotCollisions: scan the enemy shots; the first one whose
bounds intersect Buzzy is erased and true is returned at once; otherwise
false with the list unchanged. -/
def checkEnemyShotCollisions (buzzy : ECE_Buzzy) :
    List ECE_LaserBlast → Bool × List ECE_LaserBlast
  | [] => (false, [])
  | shot :: shots =>
    if buzzy.getGlobalBounds.intersects shot.getGlobalBounds then
      (true, shots)
    else
      let rest := checkEnemyShotCollisions buzzy shots
      (rest.1, shot :: rest.2)

/-- checkWin: true when no enemy is alive (the loop returns false at the
first alive enemy). -/
def checkWin (enemies : List ECE_Enemy) : Bool :=
  enemies.all fun e => !e.isAlive

/-- GameOutcome of one round. -/
inductive GameOutcome
  | Win
  | Lose
  | Quit
deriving DecidableEq, Repr

/-- The tail of the playGame loop body: after the updates, first the lose
checks (enemy shot hit or enemy touch, ending at the end screen), then the
win check (ending at the win screen); again is what the modal screen
returned (Enter to replay). none means the loop continues into drawScene. -/
def roundDecision (buzzy : ECE_Buzzy) (enemyShots : List ECE_LaserBlast)
    (enemies : List ECE_Enemy) (again : Bool) :
    Option GameOutcome × List ECE_LaserBlast :=
  let hit := checkEnemyShotCollisions buzzy enemyShots
  let killedByShot := hit.1
  let collidedEnemy := checkPlayerEnemyCollision buzzy enemies
  if killedByShot || collidedEnemy then
    (some (if again then GameOutcome.Lose else GameOutcome.Quit), hit.2)
  else if checkWin enemies then
    (some (if again then GameOutcome.Win else GameOutcome.Quit), hit.2)
  else
    (none, hit.2)

/-- The enemies drawScene actually draws: exactly the alive ones. -/
def drawnEnemies (enemies : List ECE_Enemy) : List ECE_Enemy :=
  enemies.filter fun e => e.isAlive

/-- The swarm-movement rule as the specification states it, written
independently of updateEnemies: the group extremes are the minimum and
maximum of the alive enemy edges (List.min? and List.max? over the
filtered edge lists); on a predicted wall crossing every alive enemy is
translated so the offending extreme edge lies exactly on the window edge
(translation 0 - minLeft, or windowWidth - maxRight), moves vertically by
stepUp, and the direction flips; otherwise every alive enemy moves
horizontally by enemySpeedX * dir * dt; with no alive enemies (in
particular with an empty vector) nothing changes. -/
def swarmRuleSpec (enemies : List ECE_Enemy) (dt windowWidth enemySpeedX : ℚ)
    (dir : ℤ) (stepUp : ℚ) : List ECE_Enemy × ℤ :=
  let aliveLeft := (enemies.filter fun e => e.isAlive).map fun e => e.getGlobalBounds.left
  let aliveRight := (enemies.filter fun e => e.isAlive).map fun e =>
    e.getGlobalBounds.left + e.getGlobalBounds.width
  match aliveLeft.min?, aliveRight.max? with
  | some minLeft, some maxRight =>
    let dx := enemySpeedX * (dir : ℚ) * dt
    if minLeft + dx < 0 then
      (enemies.map fun e => if e.isAlive then e.move (0 - minLeft) stepUp else e, -dir)
    else if maxRight + dx > windowWidth then
      (enemies.map fun e =>
        if e.isAlive then e.move (windowWidth - maxRight) stepUp else e, -dir)
    else
      (enemies.map fun e => if e.isAlive then e.move dx 0 else e, dir)
  | _, _ => (enemies, dir)

/-- A texture: just whether a real image was loaded into it. A
default-constructed sf::Texture has loaded = false. -/
structure TextureData where
  loaded : Bool
deriving DecidableEq, Repr

/-- The default-constructed sf::Texture. -/
def TextureData.empty : TextureData := ⟨false⟩

/-- loadTexture: default-construct a texture, call loadFromFile on it, and
return it. fs models the filesystem side of Texture::loadFromFile: some
texture when the file is readable, none when loading fails. The boolean
result of loadFromFile is discarded, so on failure the default-constructed
texture is returned; no error value is ever produced (Except.error is
unreachable). -/
def loadTexture (fs : String → Option TextureData) (path : String) :
    Except String TextureData :=
  Except.ok (match fs path with
    | some t => t
    | none => TextureData.empty)

/-! Concrete sample entities used by the closed witness statements.
The numbers mirror the 1920 x 1080 window of main: a 100 x 100 texture with
centered origin and unit scale gives a 100-wide global bounding box. -/

/-- A 100 x 100 sprite with centered origin and unit scale, placed at
(960, 270) (the player start in a 1920 x 1080 window). -/
def sampleSprite : SpriteState :=
  { px := 960, py := 270, ox := 50, oy := 50, sx := 1, sy := 1, lw := 100, lh := 100 }

/-- A sample player. -/
def sampleBuzzy : ECE_Buzzy := { sprite := sampleSprite }

/-- A sample enemy at (x, y), 100 x 100 global bounds, given alive flag. -/
def sampleEnemyAt (x y : ℚ) (alive : Bool) : ECE_Enemy :=
  { sprite := { px := x, py := y, ox := 50, oy := 50, sx := 1, sy := 1, lw := 100, lh := 100 },
    m_alive := alive }

/-- A sample enemy laser placed at (x, y). -/
def sampleShotAt (x y : ℚ) : ECE_LaserBlast :=
  (ECE_LaserBlast.create 20 80 false).setPosition x y |>.setVelocity (0, -300)

/-! Helper lemmas. -/

/-- clampQ lands in the interval when the interval is nonempty. -/
theorem clampQ_mem_Icc (v lo hi : ℚ) (h : lo ≤ hi) :
    lo ≤ clampQ v lo hi ∧ clampQ v lo hi ≤ hi := by
  unfold clampQ
  split_ifs with h₁ h₂
  · exact ⟨le_refl lo, h⟩
  · exact ⟨h, le_refl hi⟩
  · exact ⟨le_of_not_lt h₁, le_of_not_lt h₂⟩

/-! Claim theorems. -/

/-- Claim C7: ECE_Buzzy::update changes at most the x coordinate of the
position: the y coordinate, the origin, the scale, the local bounds and the
speed are all left unchanged, for every key state, dt and window width. -/
theorem claim_C7_buzzy_update_horizontal_only (b : ECE_Buzzy) (leftKey rightKey : Bool)
    (dt windowWidth : ℚ) :
    (b.update leftKey rightKey dt windowWidth).sprite.py = b.sprite.py ∧
    (b.update leftKey rightKey dt windowWidth).sprite.ox = b.sprite.ox ∧
    (b.update leftKey rightKey dt windowWidth).sprite.oy = b.sprite.oy ∧
    (b.update leftKey rightKey dt windowWidth).sprite.sx = b.sprite.sx ∧
    (b.update leftKey rightKey dt windowWidth).sprite.sy = b.sprite.sy ∧
    (b.update leftKey rightKey dt windowWidth).sprite.lw = b.sprite.lw ∧
    (b.update leftKey rightKey dt windowWidth).sprite.lh = b.sprite.lh ∧
    (b.update leftKey rightKey dt windowWidth).m_speed = b.m_speed :=
  ⟨rfl, rfl, rfl, rfl, rfl, rfl, rfl, rfl⟩

/-- Claim C8: loadTexture never signals an error. The claim states failure
is signalled by throwing; in the code the boolean result of loadFromFile is
discarded, so even on a failing path the function returns an ok value
holding the default-constructed (empty) texture, and in general every call
returns ok. This contradicts the documented behaviour above loadTexture
(Throws: std::runtime_error if the file cannot be loaded). -/
theorem claim_C8_loadTexture_never_errors :
    loadTexture (fun _ => none) "graphics/missing.png" = Except.ok TextureData.empty ∧
    ∀ (fs : String → Option TextureData) (path : String),
      ∃ t, loadTexture fs path = Except.ok t := by
  refine ⟨rfl, fun fs path => ?_⟩
  unfold loadTexture
  exact ⟨_, rfl⟩

/-- Claim C9: after ECE_Buzzy::update, whenever the global width fits in
the window, the x position lies in the closed interval from half the global
width to windowWidth minus half the global width, for any key state and any
dt. -/
theorem claim_C9_buzzy_stays_in_window (b : ECE_Buzzy) (leftKey rightKey : Bool)
    (dt windowWidth : ℚ) (h : b.getGlobalBounds.width ≤ windowWidth) :
    b.getGlobalBounds.width / 2 ≤ (b.update leftKey rightKey dt windowWidth).sprite.px ∧
    (b.update leftKey rightKey dt windowWidth).sprite.px ≤
      windowWidth - b.getGlobalBounds.width / 2 := by
  have hle : b.getGlobalBounds.width / 2 ≤ windowWidth - b.getGlobalBounds.width / 2 := by
    linarith
  exact clampQ_mem_Icc _ _ _ hle

/-- Witness for claim C9 at the sample player in a 1920-wide window. -/
theorem claim_C9_witness :
    sampleBuzzy.getGlobalBounds.width ≤ 1920 ∧
    sampleBuzzy.getGlobalBounds.width / 2 ≤
      (sampleBuzzy.update false true 1 1920).sprite.px ∧
    (sampleBuzzy.update false true 1 1920).sprite.px ≤
      1920 - sampleBuzzy.getGlobalBounds.width / 2 := by
  have hw : sampleBuzzy.getGlobalBounds.width ≤ 1920 := by
    norm_num [sampleBuzzy, sampleSprite, ECE_Buzzy.getGlobalBounds, SpriteState.globalBounds]
  exact ⟨hw, claim_C9_buzzy_stays_in_window sampleBuzzy false true 1 1920 hw⟩

/-- Claim C4 as stated is false on the code: the Space branch of
handleEvents gives the spawned player laser velocity (0, 400), whose y
component is positive (downward in screen coordinates, toward the enemies
at the bottom), and an update with dt = 1 strictly increases the shot y
coordinate instead of decreasing it. -/
theorem claim_C4_counterexample :
    (spawnPlayerShot sampleBuzzy 20 80).m_vel.2 = 400 ∧ ¬((spawnPlayerShot sampleBuzzy 20 80).m_vel.2 < 0) ∧
    ((spawnPlayerShot sampleBuzzy 20 80).update 1).sprite.py >
      (spawnPlayerShot sampleBuzzy 20 80).sprite.py := by
  refine ⟨rfl, by show ¬((400 : ℚ) < 0); norm_num, ?_⟩
  show (spawnPlayerShot sampleBuzzy 20 80).sprite.py + 400 * 1 >
    (spawnPlayerShot sampleBuzzy 20 80).sprite.py
  norm_num

/-- Claim C4 amended: every player laser spawned by the Space branch is
given velocity (0, 400), directed toward the bottom of the screen (positive
y component, toward the enemy grid), so each subsequent update with
positive dt strictly increases the shot y coordinate. -/
theorem claim_C4_amended (buzzy : ECE_Buzzy) (lw lh dt : ℚ) (hdt : 0 < dt) :
    (spawnPlayerShot buzzy lw lh).m_vel = (0, 400) ∧
    (spawnPlayerShot buzzy lw lh).sprite.py <
      ((spawnPlayerShot buzzy lw lh).update dt).sprite.py := by
  refine ⟨rfl, ?_⟩
  show (spawnPlayerShot buzzy lw lh).sprite.py <
    (spawnPlayerShot buzzy lw lh).sprite.py + 400 * dt
  linarith

/-- Witness for the amended claim C4 at the sample player and dt = 1. -/
theorem claim_C4_amended_witness :
    (0 : ℚ) < 1 ∧ (spawnPlayerShot sampleBuzzy 20 80).m_vel = (0, 400) ∧
    (spawnPlayerShot sampleBuzzy 20 80).sprite.py <
      ((spawnPlayerShot sampleBuzzy 20 80).update 1).sprite.py :=
  ⟨by norm_num, claim_C4_amended sampleBuzzy 20 80 1 (by norm_num)⟩

/-- Claim C5 as stated is false on the code: with the playGame constants
(enemySpeedX = 300, stepUp = -20), a frame in which the swarm bounces off
the right wall (the direction flips from 1 to -1) moves the single alive
enemy from y = 700 to y = 680: its y coordinate decreases, the grid steps
upward toward smaller y, not downward. -/
theorem claim_C5_counterexample :
    (updateEnemies [sampleEnemyAt 960 700 true] 4 1920 300 1 (-20)).2 = -1 ∧
    ((updateEnemies [sampleEnemyAt 960 700 true] 4 1920 300 1 (-20)).1.map
      fun e => e.sprite.py) = [680] ∧ (680 : ℚ) < 700 := by
  norm_num [updateEnemies, minLeftAlive, maxRightAlive, sampleEnemyAt,
    ECE_Enemy.isAlive, ECE_Enemy.getGlobalBounds, SpriteState.globalBounds,
    ECE_Enemy.move, SpriteState.move]

/-- Claim C5 amended: the enemy grid is ascending. With the playGame
constants (enemySpeedX = 300, stepUp = -20), each time the swarm bounces
off a window wall the y coordinate of every alive enemy decreases by 20 (the
grid steps upward, toward smaller y, toward the player at the top), dead
enemies do not move, and the y of no enemy ever increases. -/
theorem claim_C5_amended (enemies : List ECE_Enemy) (dt windowWidth : ℚ) (dir : ℤ)
    (mL mR : ℚ) (hL : minLeftAlive enemies = some mL)
    (hR : maxRightAlive enemies = some mR)
    (hb : mL + 300 * (dir : ℚ) * dt < 0 ∨ mR + 300 * (dir : ℚ) * dt > windowWidth) :
    (updateEnemies enemies dt windowWidth 300 dir (-20)).1 =
      (enemies.map fun e => if e.isAlive
        then e.move (if mL + 300 * (dir : ℚ) * dt < 0 then -mL else windowWidth - mR) (-20)
        else e) ∧
    ∀ i : ℕ, ∀ e₀, enemies[i]? = some e₀ →
      ∃ e₁, (updateEnemies enemies dt windowWidth 300 dir (-20)).1[i]? = some e₁ ∧
        e₁.sprite.py ≤ e₀.sprite.py ∧
        (e₀.isAlive = true → e₁.sprite.py = e₀.sprite.py - 20) := by
  have hne : enemies.isEmpty = false := by
    cases enemies with
    | nil => simp [minLeftAlive] at hL
    | cons a as => rfl
  have hmain : (updateEnemies enemies dt windowWidth 300 dir (-20)).1 =
      (enemies.map fun e => if e.isAlive
        then e.move (if mL + 300 * (dir : ℚ) * dt < 0 then -mL else windowWidth - mR) (-20)
        else e) := by
    unfold updateEnemies
    rw [hne, hL, hR]
    simp only [Bool.false_eq_true, if_false, if_pos hb]
  refine ⟨hmain, fun i e₀ h₀ => ?_⟩
  rw [hmain]
  refine ⟨_, by rw [List.getElem?_map, h₀, Option.map_some'], ?_, ?_⟩
  · by_cases ha : e₀.isAlive
    · simp only [ha, if_true, ECE_Enemy.move, SpriteState.move]
      linarith
    · rw [Bool.not_eq_true] at ha
      simp only [ha, Bool.false_eq_true, if_false, le_refl]
  · intro ha
    simp only [ha, if_true, ECE_Enemy.move, SpriteState.move]
    ring

/-- Witness for the amended claim C5 at a concrete right-wall bounce. -/
theorem claim_C5_amended_witness :
    minLeftAlive [sampleEnemyAt 960 700 true] = some 910 ∧
    maxRightAlive [sampleEnemyAt 960 700 true] = some 1010 ∧
    ((1010 : ℚ) + 300 * ((1 : ℤ) : ℚ) * 4 > 1920) ∧
    ∃ e₁, (updateEnemies [sampleEnemyAt 960 700 true] 4 1920 300 1 (-20)).1[0]? = some e₁ ∧
      e₁.sprite.py = (sampleEnemyAt 960 700 true).sprite.py - 20 := by
  have hL : minLeftAlive [sampleEnemyAt 960 700 true] = some 910 := by
    norm_num [minLeftAlive, sampleEnemyAt, ECE_Enemy.isAlive,
      ECE_Enemy.getGlobalBounds, SpriteState.globalBounds]
  have hR : maxRightAlive [sampleEnemyAt 960 700 true] = some 1010 := by
    norm_num [maxRightAlive, sampleEnemyAt, ECE_Enemy.isAlive,
      ECE_Enemy.getGlobalBounds, SpriteState.globalBounds]
  have hb : (1010 : ℚ) + 300 * ((1 : ℤ) : ℚ) * 4 > 1920 := by norm_num
  refine ⟨hL, hR, hb, ?_⟩
  obtain ⟨e₁, h₁, _, h₃⟩ :=
    (claim_C5_amended [sampleEnemyAt 960 700 true] 4 1920 1 910 1010 hL hR (Or.inr hb)).2
      0 (sampleEnemyAt 960 700 true) rfl
  exact ⟨e₁, h₁, h₃ rfl⟩

/-- checkWin is the all-dead predicate. -/
theorem checkWin_iff (enemies : List ECE_Enemy) :
    checkWin enemies = true ↔ ∀ e ∈ enemies, e.isAlive = false := by
  simp [checkWin, List.all_eq_true, Bool.not_eq_true']

/-- checkPlayerEnemyCollision is the alive-and-overlapping existential. -/
theorem checkPlayerEnemyCollision_iff (buzzy : ECE_Buzzy) (enemies : List ECE_Enemy) :
    checkPlayerEnemyCollision buzzy enemies = true ↔
    ∃ e ∈ enemies, e.isAlive = true ∧
      buzzy.getGlobalBounds.intersects e.getGlobalBounds = true := by
  simp [checkPlayerEnemyCollision, List.any_eq_true, Bool.and_eq_true]

/-- checkEnemyShotCollisions reports a hit exactly when some enemy shot
overlaps the player. -/
theorem checkEnemyShotCollisions_fst_iff (buzzy : ECE_Buzzy)
    (shots : List ECE_LaserBlast) :
    (checkEnemyShotCollisions buzzy shots).1 = true ↔
    ∃ s ∈ shots, buzzy.getGlobalBounds.intersects s.getGlobalBounds = true := by
  induction shots with
  | nil => simp [checkEnemyShotCollisions]
  | cons s ss ih =>
    by_cases h : buzzy.getGlobalBounds.intersects s.getGlobalBounds = true
    · simp [checkEnemyShotCollisions, h]
    · simp [checkEnemyShotCollisions, h, ih]

/-- On a hit, checkEnemyShotCollisions erases exactly one shot. -/
theorem checkEnemyShotCollisions_erases_one (buzzy : ECE_Buzzy)
    (shots : List ECE_LaserBlast) :
    (checkEnemyShotCollisions buzzy shots).1 = true →
    (checkEnemyShotCollisions buzzy shots).2.length + 1 = shots.length := by
  induction shots with
  | nil => simp [checkEnemyShotCollisions]
  | cons s ss ih =>
    by_cases h : buzzy.getGlobalBounds.intersects s.getGlobalBounds = true
    · intro _
      simp [checkEnemyShotCollisions, h]
    · intro hfst
      simp only [checkEnemyShotCollisions, h, Bool.false_eq_true, if_false,
        List.length_cons] at hfst ⊢
      rw [ih hfst]

/-- Claim C1: checkWin is true exactly when no enemy in the swarm is
alive; and on a frame that passes the lose checks with checkWin true, the
round ends and playGame returns GameOutcome.Win when the player chooses to
replay at the modal screen. -/
theorem claim_C1_win_iff_all_dead (buzzy : ECE_Buzzy)
    (enemyShots : List ECE_LaserBlast) (enemies : List ECE_Enemy)
    (hk : (checkEnemyShotCollisions buzzy enemyShots).1 = false)
    (hc : checkPlayerEnemyCollision buzzy enemies = false) :
    (checkWin enemies = true ↔ ∀ e ∈ enemies, e.isAlive = false) ∧
    (checkWin enemies = true →
      (roundDecision buzzy enemyShots enemies true).1 = some GameOutcome.Win) := by
  refine ⟨checkWin_iff enemies, fun hw => ?_⟩
  simp [roundDecision, hk, hc, hw]

/-- Witness for claim C1: no enemy shots, a single dead enemy. -/
theorem claim_C1_witness :
    (checkEnemyShotCollisions sampleBuzzy []).1 = false ∧
    checkPlayerEnemyCollision sampleBuzzy [sampleEnemyAt 100 700 false] = false ∧
    checkWin [sampleEnemyAt 100 700 false] = true ∧
    (roundDecision sampleBuzzy [] [sampleEnemyAt 100 700 false] true).1 =
      some GameOutcome.Win := by
  refine ⟨rfl, rfl, rfl, ?_⟩
  exact (claim_C1_win_iff_all_dead sampleBuzzy [] [sampleEnemyAt 100 700 false]
    rfl rfl).2 rfl

/-- Claim C2: the round ends with the lose screen exactly when this frame
the global bounds of some enemy shot intersect those of the player, or some alive
alive enemy overlaps the player; and when a shot hit happens,
exactly one enemy shot (the colliding one) is erased from the list. -/
theorem claim_C2_lose_iff_hit_or_touch (buzzy : ECE_Buzzy)
    (enemyShots : List ECE_LaserBlast) (enemies : List ECE_Enemy) :
    ((roundDecision buzzy enemyShots enemies true).1 = some GameOutcome.Lose ↔
      (∃ s ∈ enemyShots, buzzy.getGlobalBounds.intersects s.getGlobalBounds = true) ∨
      ∃ e ∈ enemies, e.isAlive = true ∧
        buzzy.getGlobalBounds.intersects e.getGlobalBounds = true) ∧
    ((checkEnemyShotCollisions buzzy enemyShots).1 = true →
      (checkEnemyShotCollisions buzzy enemyShots).2.length + 1 = enemyShots.length) := by
  refine ⟨?_, checkEnemyShotCollisions_erases_one buzzy enemyShots⟩
  have key : (roundDecision buzzy enemyShots enemies true).1 = some GameOutcome.Lose ↔
      ((checkEnemyShotCollisions buzzy enemyShots).1 ||
        checkPlayerEnemyCollision buzzy enemies) = true := by
    by_cases hk : ((checkEnemyShotCollisions buzzy enemyShots).1 ||
        checkPlayerEnemyCollision buzzy enemies) = true
    · simp [roundDecision, hk]
    · simp only [roundDecision, hk, if_false]
      simp only [Bool.or_eq_true, not_or] at hk
      rw [Bool.not_eq_true] at *
      simp only [hk.1, hk.2, Bool.or_self, Bool.false_eq_true, if_false]
      constructor
      · intro h
        split at h <;> simp_all
      · intro h
        exact absurd h (by simp)
  rw [key, Bool.or_eq_true, checkEnemyShotCollisions_fst_iff,
    checkPlayerEnemyCollision_iff]

/-- Witness for claim C2: a single enemy shot overlapping the player makes
the round end with Lose and erases that shot. -/
theorem claim_C2_witness :
    (roundDecision sampleBuzzy [sampleShotAt 960 270] [] true).1 =
      some GameOutcome.Lose ∧
    (checkEnemyShotCollisions sampleBuzzy [sampleShotAt 960 270]).1 = true ∧
    (checkEnemyShotCollisions sampleBuzzy [sampleShotAt 960 270]).2.length + 1 = 1 := by
  have hint : sampleBuzzy.getGlobalBounds.intersects
      (sampleShotAt 960 270).getGlobalBounds = true := by
    simp only [sampleBuzzy, sampleSprite, sampleShotAt, ECE_Buzzy.getGlobalBounds,
      ECE_LaserBlast.getGlobalBounds, ECE_LaserBlast.create, ECE_LaserBlast.setPosition,
      ECE_LaserBlast.setVelocity, SpriteState.globalBounds, FloatRect.intersects,
      Bool.and_eq_true, decide_eq_true_eq]
    norm_num [max_def, min_def]
  have hfst : (checkEnemyShotCollisions sampleBuzzy [sampleShotAt 960 270]).1 = true := by
    simp [checkEnemyShotCollisions, hint]
  refine ⟨(claim_C2_lose_iff_hit_or_touch sampleBuzzy [sampleShotAt 960 270] []).1.mpr
    (Or.inl ⟨sampleShotAt 960 270, List.mem_singleton.mpr rfl, hint⟩), hfst,
    (claim_C2_lose_iff_hit_or_touch sampleBuzzy [sampleShotAt 960 270] []).2 hfst⟩

/-- Folding a predicate-guarded accumulator step over a list is folding
the plain step over the filtered and mapped list. -/
theorem foldl_filter_map {α β γ : Type} (p : α → Bool) (f : α → β) (g : γ → β → γ)
    (es : List α) (init : γ) :
    es.foldl (fun acc e => if p e then g acc (f e) else acc) init =
    ((es.filter p).map f).foldl g init := by
  induction es generalizing init with
  | nil => rfl
  | cons e es ih =>
    by_cases hp : p e
    · simp [List.filter_cons, hp, ih]
    · simp [List.filter_cons, hp, ih]

/-- The optional running minimum started below a seed value equals the seed
folded with min. -/
theorem foldl_optMin_go (xs : List ℚ) : ∀ m : ℚ,
    xs.foldl (fun acc x => match acc with
      | none => some x
      | some m₀ => some (min m₀ x)) (some m) = some (xs.foldl min m) := by
  induction xs with
  | nil => intro m; rfl
  | cons x xs ih => intro m; exact ih (min m x)

/-- The optional running minimum computes List.min?. -/
theorem foldl_optMin (l : List ℚ) :
    l.foldl (fun acc x => match acc with
      | none => some x
      | some m₀ => some (min m₀ x)) none = l.min? := by
  cases l with
  | nil => rfl
  | cons x xs => exact foldl_optMin_go xs x

/-- The optional running maximum started above a seed value equals the
seed folded with max. -/
theorem foldl_optMax_go (xs : List ℚ) : ∀ m : ℚ,
    xs.foldl (fun acc x => match acc with
      | none => some x
      | some m₀ => some (max m₀ x)) (some m) = some (xs.foldl max m) := by
  induction xs with
  | nil => intro m; rfl
  | cons x xs ih => intro m; exact ih (max m x)

/-- The optional running maximum computes List.max?. -/
theorem foldl_optMax (l : List ℚ) :
    l.foldl (fun acc x => match acc with
      | none => some x
      | some m₀ => some (max m₀ x)) none = l.max? := by
  cases l with
  | nil => rfl
  | cons x xs => exact foldl_optMax_go xs x

/-- The plus-infinity-seeded minimum loop of updateEnemies is List.min?
over the left edges of the alive enemies. -/
theorem minLeftAlive_eq (es : List ECE_Enemy) :
    minLeftAlive es =
      (((es.filter fun e => e.isAlive).map fun e => e.getGlobalBounds.left).min?) := by
  rw [← foldl_optMin]
  exact foldl_filter_map (fun e => e.isAlive) (fun e => e.getGlobalBounds.left)
    (fun acc x => match acc with
      | none => some x
      | some m₀ => some (min m₀ x)) es none

/-- The minus-infinity-seeded maximum loop of updateEnemies is List.max?
over the right edges of the alive enemies. -/
theorem maxRightAlive_eq (es : List ECE_Enemy) :
    maxRightAlive es =
      (((es.filter fun e => e.isAlive).map fun e =>
        e.getGlobalBounds.left + e.getGlobalBounds.width).max?) := by
  rw [← foldl_optMax]
  exact foldl_filter_map (fun e => e.isAlive)
    (fun e => e.getGlobalBounds.left + e.getGlobalBounds.width)
    (fun acc x => match acc with
      | none => some x
      | some m₀ => some (max m₀ x)) es none

/-- Claim C3: updateEnemies implements the swarm-movement rule exactly as
the specification states it: march every alive enemy horizontally by
enemySpeedX * dir * dt; when the predicted move would push the group
minimum left edge below 0 or its maximum right edge past windowWidth,
instead translate every alive enemy so the offending extreme edge lies
exactly on the window edge, move every alive enemy vertically by stepUp
and flip dir; with no alive enemies or an empty vector nothing changes. -/
theorem claim_C3_updateEnemies_swarm_rule (enemies : List ECE_Enemy)
    (dt windowWidth enemySpeedX : ℚ) (dir : ℤ) (stepUp : ℚ) :
    updateEnemies enemies dt windowWidth enemySpeedX dir stepUp =
    swarmRuleSpec enemies dt windowWidth enemySpeedX dir stepUp := by
  cases enemies with
  | nil => rfl
  | cons e es =>
    simp only [updateEnemies, swarmRuleSpec, List.isEmpty_cons, Bool.false_eq_true,
      if_false, minLeftAlive_eq, maxRightAlive_eq]
    cases hL : (((e :: es).filter fun e => e.isAlive).map
        fun e => e.getGlobalBounds.left).min? with
    | none =>
      cases hR : (((e :: es).filter fun e => e.isAlive).map
          fun e => e.getGlobalBounds.left + e.getGlobalBounds.width).max? <;> rfl
    | some mL =>
      cases hR : (((e :: es).filter fun e => e.isAlive).map
          fun e => e.getGlobalBounds.left + e.getGlobalBounds.width).max? with
      | none => rfl
      | some mR =>
        by_cases h1 : mL + enemySpeedX * (dir : ℚ) * dt < 0
        · simp [h1, zero_sub]
        · by_cases h2 : mR + enemySpeedX * (dir : ℚ) * dt > windowWidth
          · simp [h1, h2]
          · simp [h1, h2]

/-- A shot passes through the swarm untouched exactly when it overlaps no
alive enemy. -/
theorem killFirstHit_none_iff (r : FloatRect) (es : List ECE_Enemy) :
    killFirstHit r es = none ↔
    ∀ e ∈ es, ¬(e.isAlive = true ∧ r.intersects e.getGlobalBounds = true) := by
  induction es with
  | nil => simp [killFirstHit]
  | cons e es ih =>
    by_cases hc : (e.isAlive && r.intersects e.getGlobalBounds) = true
    · rw [Bool.and_eq_true] at hc
      simp [killFirstHit, hc]
    · rw [Bool.and_eq_true] at hc
      push_neg at hc
      by_cases ha : e.isAlive = true
      · simp [killFirstHit, ha, hc ha, ih]
      · simp [killFirstHit, ha, ih]

/-- A hit kills exactly the first alive overlapped enemy: the result is the
input list with the alive flag of that one enemy cleared, everything else
untouched. -/
theorem killFirstHit_some_spec (r : FloatRect) :
    ∀ es es' : List ECE_Enemy, killFirstHit r es = some es' →
    ∃ k, ∃ hk : k < es.length,
      (es.get ⟨k, hk⟩).isAlive = true ∧
      r.intersects (es.get ⟨k, hk⟩).getGlobalBounds = true ∧
      es' = es.set k ((es.get ⟨k, hk⟩).kill) := by
  intro es
  induction es with
  | nil => intro es' h; simp [killFirstHit] at h
  | cons e es ih =>
    intro es' h
    by_cases hc : (e.isAlive && r.intersects e.getGlobalBounds) = true
    · rw [killFirstHit, if_pos hc] at h
      rw [Bool.and_eq_true] at hc
      cases h
      exact ⟨0, Nat.succ_pos _, hc.1, hc.2, rfl⟩
    · rw [killFirstHit, if_neg hc] at h
      obtain ⟨es₂, h₂, rfl⟩ := Option.map_eq_some'.mp h
      obtain ⟨k, hk, ha, hi, hset⟩ := ih es₂ h₂
      exact ⟨k + 1, Nat.succ_lt_succ hk, ha, hi, by rw [hset]; rfl⟩

/-- A hit lowers the number of alive enemies by exactly one. -/
theorem killFirstHit_countAlive (r : FloatRect) :
    ∀ es es' : List ECE_Enemy, killFirstHit r es = some es' →
      es'.countP (fun e => e.isAlive) + 1 = es.countP (fun e => e.isAlive) := by
  intro es
  induction es with
  | nil => intro es' h; simp [killFirstHit] at h
  | cons e es ih =>
    intro es' h
    by_cases hc : (e.isAlive && r.intersects e.getGlobalBounds) = true
    · rw [killFirstHit, if_pos hc] at h
      rw [Bool.and_eq_true] at hc
      cases h
      have h1 : e.m_alive = true := hc.1
      simp [List.countP_cons, ECE_Enemy.kill, ECE_Enemy.isAlive, h1]
    · rw [killFirstHit, if_neg hc] at h
      obtain ⟨es₂, h₂, rfl⟩ := Option.map_eq_some'.mp h
      have := ih es₂ h₂
      simp only [List.countP_cons]
      omega

/-- A hit keeps the swarm length and the bounds of every entry; alive flags
can only be cleared, and an entry that was dead is returned unchanged. -/
theorem killFirstHit_pointwise (r : FloatRect) :
    ∀ es es' : List ECE_Enemy, killFirstHit r es = some es' →
      es'.length = es.length ∧
      ∀ i : ℕ, ∀ e₁, es'[i]? = some e₁ → ∃ e₀, es[i]? = some e₀ ∧
        e₁.getGlobalBounds = e₀.getGlobalBounds ∧
        (e₁.isAlive = true → e₀.isAlive = true) ∧
        (e₀.isAlive = false → e₁ = e₀) := by
  intro es
  induction es with
  | nil => intro es' h; simp [killFirstHit] at h
  | cons e es ih =>
    intro es' h
    by_cases hc : (e.isAlive && r.intersects e.getGlobalBounds) = true
    · rw [killFirstHit, if_pos hc] at h
      rw [Bool.and_eq_true] at hc
      cases h
      refine ⟨rfl, fun i e₁ h₁ => ?_⟩
      cases i with
      | zero =>
        rw [List.getElem?_cons_zero, Option.some_inj] at h₁
        refine ⟨e, by rw [List.getElem?_cons_zero], ?_, ?_, ?_⟩
        · rw [← h₁]; rfl
        · intro hk
          rw [← h₁] at hk
          simp [ECE_Enemy.kill, ECE_Enemy.isAlive] at hk
        · intro hd
          rw [ECE_Enemy.isAlive] at hc
          rw [ECE_Enemy.isAlive, hc.1] at hd
          cases hd
      | succ i =>
        rw [List.getElem?_cons_succ] at h₁
        exact ⟨e₁, by rw [List.getElem?_cons_succ]; exact h₁, rfl, fun hk => hk, fun _ => rfl⟩
    · rw [killFirstHit, if_neg hc] at h
      obtain ⟨es₂, h₂, rfl⟩ := Option.map_eq_some'.mp h
      obtain ⟨hlen, hpt⟩ := ih es₂ h₂
      refine ⟨by simp [hlen], fun i e₁ h₁ => ?_⟩
      cases i with
      | zero =>
        rw [List.getElem?_cons_zero, Option.some_inj] at h₁
        exact ⟨e, by rw [List.getElem?_cons_zero], by rw [← h₁],
          by rw [← h₁]; exact fun hk => hk, fun _ => h₁.symm⟩
      | succ i =>
        rw [List.getElem?_cons_succ] at h₁
        obtain ⟨e₀, h₀, hb, hm, hd⟩ := hpt i e₁ h₁
        exact ⟨e₀, by rw [List.getElem?_cons_succ]; exact h₀, hb, hm, hd⟩

/-- Bookkeeping of checkPlayerShotCollisions: every erased shot accounts
for exactly one formerly alive enemy (alive after + shots before = alive
before + shots after). -/
theorem cps_count (ss : List ECE_LaserBlast) : ∀ es : List ECE_Enemy,
    (checkPlayerShotCollisions ss es).2.countP (fun e => e.isAlive) + ss.length =
    es.countP (fun e => e.isAlive) + (checkPlayerShotCollisions ss es).1.length := by
  induction ss with
  | nil => intro es; simp [checkPlayerShotCollisions]
  | cons s ss ih =>
    intro es
    rcases hk : killFirstHit s.getGlobalBounds es with _ | es₂
    · simp only [checkPlayerShotCollisions, hk, List.length_cons]
      have := ih es
      omega
    · simp only [checkPlayerShotCollisions, hk, List.length_cons]
      have h1 := killFirstHit_countAlive _ es es₂ hk
      have h2 := ih es₂
      omega

/-- A shot that overlaps no alive enemy survives checkPlayerShotCollisions
(killing only clears alive flags, so a clean shot stays clean). -/
theorem cps_keeps_clean_shots (ss : List ECE_LaserBlast) : ∀ es : List ECE_Enemy,
    ∀ s ∈ ss,
    (∀ e ∈ es, ¬(e.isAlive = true ∧ s.getGlobalBounds.intersects e.getGlobalBounds = true)) →
    s ∈ (checkPlayerShotCollisions ss es).1 := by
  induction ss with
  | nil => intro es s h; cases h
  | cons s₀ ss ih =>
    intro es s hmem hclean
    rcases hk : killFirstHit s₀.getGlobalBounds es with _ | es₂
    · simp only [checkPlayerShotCollisions, hk]
      rcases List.mem_cons.mp hmem with rfl | hmem₂
      · exact List.mem_cons_self _ _
      · exact List.mem_cons_of_mem _ (ih es s hmem₂ hclean)
    · simp only [checkPlayerShotCollisions, hk]
      rcases List.mem_cons.mp hmem with rfl | hmem₂
      · exfalso
        obtain ⟨k, hk', ha, hi, _⟩ := killFirstHit_some_spec _ es es₂ hk
        exact hclean (es.get ⟨k, hk'⟩) (es.get_mem _ _) ⟨ha, hi⟩
      · refine ih es₂ s hmem₂ fun e₁ he₁ hbad => ?_
        obtain ⟨i, hi₂⟩ := List.getElem?_of_mem he₁
        obtain ⟨e₀, h₀, hb, hm, _⟩ := (killFirstHit_pointwise _ es es₂ hk).2 i e₁ hi₂
        exact hclean e₀ (List.getElem?_mem h₀) ⟨hm hbad.1, by rw [← hb]; exact hbad.2⟩

/-- Claim C6: player-shot collision resolution is by bounding-box
intersection. A shot leaves the swarm untouched exactly when it overlaps no
alive enemy; on a hit exactly one enemy (the first alive overlapped one)
has its alive flag cleared and the shot is erased from the list; each
erased shot accounts for exactly one kill; and shots overlapping no alive
enemy remain in the list. -/
theorem claim_C6_player_shot_collisions :
    (∀ (r : FloatRect) (es : List ECE_Enemy),
      killFirstHit r es = none ↔
      ∀ e ∈ es, ¬(e.isAlive = true ∧ r.intersects e.getGlobalBounds = true)) ∧
    (∀ (r : FloatRect) (es es' : List ECE_Enemy), killFirstHit r es = some es' →
      ∃ k, ∃ hk : k < es.length,
        (es.get ⟨k, hk⟩).isAlive = true ∧
        r.intersects (es.get ⟨k, hk⟩).getGlobalBounds = true ∧
        es' = es.set k ((es.get ⟨k, hk⟩).kill)) ∧
    (∀ (shot : ECE_LaserBlast) (shots : List ECE_LaserBlast) (es : List ECE_Enemy),
      (killFirstHit shot.getGlobalBounds es = none →
        checkPlayerShotCollisions (shot :: shots) es =
          (shot :: (checkPlayerShotCollisions shots es).1,
            (checkPlayerShotCollisions shots es).2)) ∧
      ∀ es₂, killFirstHit shot.getGlobalBounds es = some es₂ →
        checkPlayerShotCollisions (shot :: shots) es =
          checkPlayerShotCollisions shots es₂) ∧
    (∀ (ss : List ECE_LaserBlast) (es : List ECE_Enemy),
      (checkPlayerShotCollisions ss es).2.countP (fun e => e.isAlive) + ss.length =
      es.countP (fun e => e.isAlive) + (checkPlayerShotCollisions ss es).1.length) ∧
    (∀ (ss : List ECE_LaserBlast) (es : List ECE_Enemy), ∀ s ∈ ss,
      (∀ e ∈ es,
        ¬(e.isAlive = true ∧ s.getGlobalBounds.intersects e.getGlobalBounds = true)) →
      s ∈ (checkPlayerShotCollisions ss es).1) := by
  refine ⟨killFirstHit_none_iff, killFirstHit_some_spec,
    fun shot shots es => ⟨fun h => ?_, fun es₂ h => ?_⟩, cps_count,
    fun ss es s hmem hclean => cps_keeps_clean_shots ss es s hmem hclean⟩
  · simp [checkPlayerShotCollisions, h]
  · simp [checkPlayerShotCollisions, h]

/-- Witness for claim C6: a shot directly over a single alive enemy kills
it and is erased. -/
theorem claim_C6_witness :
    killFirstHit (sampleShotAt 960 700).getGlobalBounds [sampleEnemyAt 960 700 true] =
      some [(sampleEnemyAt 960 700 true).kill] ∧
    checkPlayerShotCollisions [sampleShotAt 960 700] [sampleEnemyAt 960 700 true] =
      ([], [(sampleEnemyAt 960 700 true).kill]) := by
  have hint : (sampleShotAt 960 700).getGlobalBounds.intersects
      (sampleEnemyAt 960 700 true).getGlobalBounds = true := by
    simp only [sampleShotAt, sampleEnemyAt, ECE_LaserBlast.getGlobalBounds,
      ECE_Enemy.getGlobalBounds, ECE_LaserBlast.create, ECE_LaserBlast.setPosition,
      ECE_LaserBlast.setVelocity, SpriteState.globalBounds, FloatRect.intersects,
      Bool.and_eq_true, decide_eq_true_eq]
    norm_num [max_def, min_def]
  have hcond : ((sampleEnemyAt 960 700 true).isAlive &&
      (sampleShotAt 960 700).getGlobalBounds.intersects
        (sampleEnemyAt 960 700 true).getGlobalBounds) = true := by
    rw [Bool.and_eq_true]
    exact ⟨rfl, hint⟩
  have hk : killFirstHit (sampleShotAt 960 700).getGlobalBounds
      [sampleEnemyAt 960 700 true] = some [(sampleEnemyAt 960 700 true).kill] := by
    simp [killFirstHit, hcond]
  refine ⟨hk, ?_⟩
  rw [(claim_C6_player_shot_collisions.2.2.1 (sampleShotAt 960 700) []
    [sampleEnemyAt 960 700 true]).2 [(sampleEnemyAt 960 700 true).kill] hk]
  rfl

/-- updateEnemies either leaves the list untouched or maps a move over the
alive enemies only. -/
theorem updateEnemies_shape (enemies : List ECE_Enemy) (dt windowWidth enemySpeedX : ℚ)
    (dir : ℤ) (stepUp : ℚ) :
    (updateEnemies enemies dt windowWidth enemySpeedX dir stepUp).1 = enemies ∨
    ∃ dx dy : ℚ, (updateEnemies enemies dt windowWidth enemySpeedX dir stepUp).1 =
      enemies.map fun e => if e.isAlive then e.move dx dy else e := by
  unfold updateEnemies
  by_cases hE : enemies.isEmpty = true
  · rw [if_pos hE]
    exact Or.inl rfl
  · rw [if_neg hE]
    cases hL : minLeftAlive enemies with
    | none => cases hR : maxRightAlive enemies <;> exact Or.inl rfl
    | some mL =>
      cases hR : maxRightAlive enemies with
      | none => exact Or.inl rfl
      | some mR =>
        by_cases hb : mL + enemySpeedX * (dir : ℚ) * dt < 0 ∨
            mR + enemySpeedX * (dir : ℚ) * dt > windowWidth
        · refine Or.inr ⟨if mL + enemySpeedX * (dir : ℚ) * dt < 0 then -mL
            else windowWidth - mR, stepUp, ?_⟩
          simp only [if_pos hb]
        · refine Or.inr ⟨enemySpeedX * (dir : ℚ) * dt, 0, ?_⟩
          simp only [if_neg hb]

/-- checkPlayerShotCollisions never revives an enemy and returns every dead
enemy unchanged at its position. -/
theorem cps_pointwise (ss : List ECE_LaserBlast) : ∀ (es : List ECE_Enemy) (i : ℕ)
    (e₁ : ECE_Enemy), (checkPlayerShotCollisions ss es).2[i]? = some e₁ →
    ∃ e₀, es[i]? = some e₀ ∧ (e₁.isAlive = true → e₀.isAlive = true) ∧
      (e₀.isAlive = false → e₁ = e₀) := by
  induction ss with
  | nil => intro es i e₁ h; exact ⟨e₁, h, fun hk => hk, fun _ => rfl⟩
  | cons s ss ih =>
    intro es i e₁ h
    rcases hk : killFirstHit s.getGlobalBounds es with _ | es₂
    · simp only [checkPlayerShotCollisions, hk] at h
      exact ih es i e₁ h
    · simp only [checkPlayerShotCollisions, hk] at h
      obtain ⟨e₂, h₂, hm₂, hd₂⟩ := ih es₂ i e₁ h
      obtain ⟨e₀, h₀, _, hm₀, hd₀⟩ := (killFirstHit_pointwise _ es es₂ hk).2 i e₂ h₂
      refine ⟨e₀, h₀, fun hk₁ => hm₀ (hm₂ hk₁), fun hdead => ?_⟩
      have he₂ : e₂ = e₀ := hd₀ hdead
      have he₁ : e₁ = e₂ := hd₂ (by rw [he₂]; exact hdead)
      rw [he₁, he₂]

/-- spawnEnemyLaser only ever picks an alive shooter, and fires nothing
exactly when no enemy is alive. -/
theorem spawnEnemyLaser_spec (enemies : List ECE_Enemy) (randVal : ℕ) (lw lh : ℚ) :
    (∀ shot, spawnEnemyLaser enemies randVal lw lh = some shot →
      ∃ e ∈ enemies, e.isAlive = true ∧
        shot = ((ECE_LaserBlast.create lw lh false).setPosition e.sprite.px
          (e.sprite.py + e.getGlobalBounds.height / 2 + 10)).setVelocity (0, -300)) ∧
    (spawnEnemyLaser enemies randVal lw lh = none ↔
      ∀ e ∈ enemies, e.isAlive = false) := by
  unfold spawnEnemyLaser
  by_cases h : (enemies.filter fun e => e.isAlive).length = 0
  · rw [dif_pos h]
    rw [List.length_eq_zero, List.filter_eq_nil_iff] at h
    constructor
    · intro shot hs; cases hs
    · simp only [true_iff]
      intro e he
      have hne := h e he
      rwa [Bool.not_eq_true] at hne
  · rw [dif_neg h]
    constructor
    · intro shot hs
      rw [Option.some_inj] at hs
      have hmem := List.get_mem (enemies.filter fun e => e.isAlive)
        (randVal % (enemies.filter fun e => e.isAlive).length)
        (Nat.mod_lt _ (Nat.pos_of_ne_zero h))
      have hf := List.mem_filter.mp hmem
      exact ⟨_, hf.1, hf.2, hs.symm⟩
    · constructor
      · intro hnone; cases hnone
      · intro hall
        exfalso
        apply h
        rw [List.length_eq_zero, List.filter_eq_nil_iff]
        intro e he
        rw [Bool.not_eq_true]
        exact hall e he

/-- Claim C10: dead enemies stay dead and inert. updateEnemies keeps every
alive flag and returns each dead enemy unchanged; checkPlayerShotCollisions
never revives an enemy and returns dead enemies unchanged (they collide
with no shot); spawnEnemyLaser only ever picks an alive shooter and fires
nothing exactly when no enemy is alive; drawScene draws exactly the alive
enemies. -/
theorem claim_C10_dead_enemies_inert :
    (∀ (enemies : List ECE_Enemy) (dt windowWidth enemySpeedX : ℚ) (dir : ℤ)
      (stepUp : ℚ) (i : ℕ) (e₀ : ECE_Enemy), enemies[i]? = some e₀ →
      ∃ e₁, (updateEnemies enemies dt windowWidth enemySpeedX dir stepUp).1[i]? =
          some e₁ ∧ e₁.isAlive = e₀.isAlive ∧ (e₀.isAlive = false → e₁ = e₀)) ∧
    (∀ (ss : List ECE_LaserBlast) (es : List ECE_Enemy) (i : ℕ) (e₁ : ECE_Enemy),
      (checkPlayerShotCollisions ss es).2[i]? = some e₁ →
      ∃ e₀, es[i]? = some e₀ ∧ (e₁.isAlive = true → e₀.isAlive = true) ∧
        (e₀.isAlive = false → e₁ = e₀)) ∧
    (∀ (enemies : List ECE_Enemy) (randVal : ℕ) (lw lh : ℚ),
      (∀ shot, spawnEnemyLaser enemies randVal lw lh = some shot →
        ∃ e ∈ enemies, e.isAlive = true ∧
          shot = ((ECE_LaserBlast.create lw lh false).setPosition e.sprite.px
            (e.sprite.py + e.getGlobalBounds.height / 2 + 10)).setVelocity (0, -300)) ∧
      (spawnEnemyLaser enemies randVal lw lh = none ↔
        ∀ e ∈ enemies, e.isAlive = false)) ∧
    (∀ enemies : List ECE_Enemy,
      (∀ e ∈ drawnEnemies enemies, e.isAlive = true) ∧
      ∀ e : ECE_Enemy, e ∈ drawnEnemies enemies ↔ e ∈ enemies ∧ e.isAlive = true) := by
  refine ⟨fun enemies dt windowWidth enemySpeedX dir stepUp i e₀ h₀ => ?_,
    cps_pointwise, spawnEnemyLaser_spec, fun enemies => ⟨fun e he => ?_, fun e => ?_⟩⟩
  · rcases updateEnemies_shape enemies dt windowWidth enemySpeedX dir stepUp with
      hsh | ⟨dx, dy, hsh⟩
    · exact ⟨e₀, by rw [hsh]; exact h₀, rfl, fun _ => rfl⟩
    · refine ⟨if e₀.isAlive then e₀.move dx dy else e₀, ?_, ?_, ?_⟩
      · rw [hsh, List.getElem?_map, h₀, Option.map_some']
      · by_cases ha : e₀.isAlive = true
        · simp only [ha, if_true]
          exact ha
        · rw [Bool.not_eq_true] at ha
          simp only [ha, Bool.false_eq_true, if_false]
      · intro hd
        simp only [hd, Bool.false_eq_true, if_false]
  · exact (List.mem_filter.mp he).2
  · exact List.mem_filter

/-- Witness for claim C10 on concrete swarms: a dead enemy passes through
updateEnemies and checkPlayerShotCollisions unchanged, spawnEnemyLaser
fires nothing at an all-dead swarm and picks an alive shooter otherwise,
and the dead enemy is not drawn. -/
theorem claim_C10_witness :
    (∃ e₁, (updateEnemies [sampleEnemyAt 100 700 false] 1 1920 300 1 (-20)).1[0]? =
      some e₁ ∧ e₁ = sampleEnemyAt 100 700 false) ∧
    (∃ e₀, ([sampleEnemyAt 100 700 false] : List ECE_Enemy)[0]? = some e₀ ∧
      (checkPlayerShotCollisions [] [sampleEnemyAt 100 700 false]).2[0]? = some e₀) ∧
    spawnEnemyLaser [sampleEnemyAt 100 700 false] 5 20 80 = none ∧
    (∃ e ∈ ([sampleEnemyAt 960 700 true] : List ECE_Enemy), e.isAlive = true) ∧
    sampleEnemyAt 100 700 false ∉ drawnEnemies [sampleEnemyAt 100 700 false] := by
  have hdead : (sampleEnemyAt 100 700 false).isAlive = false := rfl
  have h₀ : ([sampleEnemyAt 100 700 false] : List ECE_Enemy)[0]? =
      some (sampleEnemyAt 100 700 false) := by
    rw [List.getElem?_cons_zero]
  refine ⟨?_, ?_, ?_, ?_, ?_⟩
  · obtain ⟨e₁, h₁, _, hd⟩ :=
      claim_C10_dead_enemies_inert.1 [sampleEnemyAt 100 700 false] 1 1920 300 1 (-20)
        0 (sampleEnemyAt 100 700 false) h₀
    exact ⟨e₁, h₁, hd hdead⟩
  · obtain ⟨e₀, h₁, _, _⟩ :=
      claim_C10_dead_enemies_inert.2.1 [] [sampleEnemyAt 100 700 false] 0
        (sampleEnemyAt 100 700 false) h₀
    exact ⟨sampleEnemyAt 100 700 false, h₀, h₀⟩
  · exact (claim_C10_dead_enemies_inert.2.2.1 [sampleEnemyAt 100 700 false] 5 20 80).2.mpr
      (fun e he => by rw [List.mem_singleton.mp he]; rfl)
  · have hlen : ¬(([sampleEnemyAt 960 700 true].filter fun e => e.isAlive).length = 0) := by
      rw [show ([sampleEnemyAt 960 700 true].filter fun e => e.isAlive) =
        [sampleEnemyAt 960 700 true] from rfl]
      simp
    have hs : ∃ shot, spawnEnemyLaser [sampleEnemyAt 960 700 true] 0 20 80 = some shot := by
      unfold spawnEnemyLaser
      rw [dif_neg hlen]
      exact ⟨_, rfl⟩
    obtain ⟨shot, hs⟩ := hs
    obtain ⟨e, hmem, halive, _⟩ :=
      (claim_C10_dead_enemies_inert.2.2.1 [sampleEnemyAt 960 700 true] 0 20 80).1 shot hs
    exact ⟨e, hmem, halive⟩
  · intro hmem
    have := (claim_C10_dead_enemies_inert.2.2.2 [sampleEnemyAt 100 700 false]).1
      (sampleEnemyAt 100 700 false) hmem
    rw [hdead] at this
    cases this

end BuzzyDefender
